import Mathlib

/-!
Verification of the format-selection and formatting logic of the
yt_downloader repository (src/youtube_downloader.py and
src/yt_playlist_downloader.py), shallowly embedded in Lean.

Numbers reported by the extractor are modelled as follows: integer fields
(heights, byte counts) as ℤ, the possibly fractional bitrate `tbr` and the
duration as ℚ.  Optional dictionary fields are modelled as `Option`;
`d.get(key, default)` becomes `Option.getD`, and Python truthiness of an
optional numeric field (`if d.get(key):`) tests that the field is present
and non-zero.
-/

namespace Yt

/-- One stream-format descriptor, as produced by the external extractor
(the fields of the Python dicts that the scripts read). -/
structure Format where
  format_id : String
  height : Option ℤ
  ext : String
  filesize : Option ℤ
  filesize_approx : Option ℤ
  tbr : Option ℚ
  vbr : Option ℚ
  fps : Option ℚ
  vcodec : Option String
deriving DecidableEq, Repr, Inhabited

/-- Python truthiness of an optional integer field: present and non-zero. -/
def truthyZ : Option ℤ → Bool
  | none => false
  | some v => v != 0

/-- Python truthiness of an optional rational field: present and non-zero. -/
def truthyQ : Option ℚ → Bool
  | none => false
  | some v => v != 0

/-- `get_quality_label` of src/youtube_downloader.py lines 100-117. -/
def get_quality_label : Option ℤ → String
  | none => "Unknown"
  | some height =>
    if height ≤ 480 then "SD"
    else if height ≤ 720 then "HD"
    else if height ≤ 1080 then "FHD"
    else if height ≤ 1440 then "QHD"
    else if height ≤ 2160 then "4K"
    else if height ≤ 4320 then "8K"
    else toString height ++ "p"

/-- Round a rational to the nearest integer, ties to even; models the
rounding used by Python float formatting (exact at the rational level). -/
def roundHalfEven (q : ℚ) : ℤ :=
  if Int.fract q < 1/2 then ⌊q⌋
  else if 1/2 < Int.fract q then ⌊q⌋ + 1
  else if ⌊q⌋ % 2 = 0 then ⌊q⌋ else ⌊q⌋ + 1

/-- One-decimal-place rendering of a non-negative rational; models the
Python format expression with one decimal place as used on sizes. -/
def renderFixed1 (q : ℚ) : String :=
  let n : ℤ := roundHalfEven (10 * q)
  toString (Int.ediv n 10) ++ "." ++ toString (Int.emod n 10)

/-- The unit loop of `format_size` (lines 28-32 of both scripts): walk the
unit list, dividing by 1024 while the value is not below 1024; after the
last unit print "TB" unconditionally. -/
def formatSizeGo : List String → ℚ → String
  | [], x => renderFixed1 x ++ "TB"
  | u :: us, x => if x < 1024 then renderFixed1 x ++ u else formatSizeGo us (x / 1024)

/-- `format_size` of src/youtube_downloader.py lines 23-32 (identical in
src/yt_playlist_downloader.py lines 22-31). -/
def format_size : Option ℚ → String
  | none => "Unknown"
  | some x => formatSizeGo (["B", "KB", "MB", "GB"]) x

/-- `estimate_size` of src/youtube_downloader.py lines 46-61.  Each guard
is a Python truthiness test on the field. -/
def estimate_size (format_info : Format) (duration : Option ℚ) : Option ℚ :=
  if truthyZ format_info.filesize then format_info.filesize.map (fun v => (v : ℚ))
  else if truthyZ format_info.filesize_approx then
    format_info.filesize_approx.map (fun v => (v : ℚ))
  else if truthyQ format_info.tbr && truthyQ duration then
    some (format_info.tbr.getD 0 * 1000 * duration.getD 0 / 8)
  else none

/-! ### URL validation (src/youtube_downloader.py lines 8-21,
src/yt_playlist_downloader.py lines 8-20)

The five (resp. four) regular expressions are matched with the Python
semantics of an anchored-at-start, unanchored-at-end match with
IGNORECASE.  Each pattern is a sequence of case-insensitive literals,
optional groups and a final one-or-more character class, embedded here as
backtracking continuation-passing matchers over `List Char`.  The word
class is modelled over ASCII (letters, digits, underscore). -/

/-- A matcher consumes a recognised portion of the input and yields the
remainder, or fails. -/
abbrev Matcher := List Char → Option (List Char)

/-- ASCII lower-casing, for IGNORECASE matching. -/
def lowerChar (c : Char) : Char :=
  if 'A' ≤ c ∧ c ≤ 'Z' then Char.ofNat (c.toNat + 32) else c

/-- Case-insensitive literal match, returning the remainder. -/
def matchLit : List Char → List Char → Option (List Char)
  | [], s => some s
  | _ :: _, [] => none
  | c :: cs, x :: xs => if lowerChar x = lowerChar c then matchLit cs xs else none

/-- The character class of the patterns, ASCII word characters and dash. -/
def isWordChar (c : Char) : Bool :=
  (('a' ≤ c) && (c ≤ 'z')) || (('A' ≤ c) && (c ≤ 'Z')) ||
    (('0' ≤ c) && (c ≤ '9')) || (c == '_') || (c == '-')

/-- Terminal piece of each pattern: one or more word-or-dash characters,
matched greedily (nothing follows it in any pattern). -/
def mWordPlus : Matcher
  | [] => none
  | c :: cs => if isWordChar c then some (cs.dropWhile isWordChar) else none

/-- Sequence a literal before a continuation. -/
def mLit (lit : List Char) (k : Matcher) : Matcher := fun s =>
  match matchLit lit s with
  | some r => k r
  | none => none

/-- Optional group with backtracking: try the group with the continuation,
otherwise the continuation alone. -/
def mOpt (sub : Matcher → Matcher) (k : Matcher) : Matcher := fun s =>
  match sub k s with
  | some r => some r
  | none => k s

def litHttp : List Char := ("http").data
def litS : List Char := ("s").data
def litColonSS : List Char := ("://").data
def litWWW : List Char := ("www.").data
def litMDot : List Char := ("m.").data
def litWatchV : List Char := ("youtube.com/watch?v=").data
def litBe : List Char := ("youtu.be/").data
def litEmbed : List Char := ("youtube.com/embed/").data
def litVSlash : List Char := ("youtube.com/v/").data
def litPlaylistQ : List Char := ("youtube.com/playlist?list=").data
def litWatchQ : List Char := ("youtube.com/watch?").data
def litListEq : List Char := ("list=").data

/-- The optional scheme group of every pattern. -/
def schemeOpt (k : Matcher) : Matcher :=
  mOpt (fun k2 => mLit litHttp (mOpt (mLit litS) (mLit litColonSS k2))) k

/-- The optional www-dot group. -/
def wwwOpt (k : Matcher) : Matcher := mOpt (mLit litWWW) k

/-- The optional m-dot group. -/
def mDotOpt (k : Matcher) : Matcher := mOpt (mLit litMDot) k

def patWatch : Matcher := schemeOpt (wwwOpt (mLit litWatchV mWordPlus))
def patBe : Matcher := schemeOpt (wwwOpt (mLit litBe mWordPlus))
def patEmbed : Matcher := schemeOpt (wwwOpt (mLit litEmbed mWordPlus))
def patVSlash : Matcher := schemeOpt (wwwOpt (mLit litVSlash mWordPlus))
def patMWatch : Matcher := schemeOpt (mDotOpt (mLit litWatchV mWordPlus))

/-- `is_youtube_url` of src/youtube_downloader.py lines 8-21: true when
any of the five patterns matches at the start of the string. -/
def is_youtube_url (url : String) : Bool :=
  (patWatch url.data).isSome || (patBe url.data).isSome ||
    (patEmbed url.data).isSome || (patVSlash url.data).isSome ||
      (patMWatch url.data).isSome

/-- The dot-star-then-list piece of the playlist watch patterns: some
suffix reachable without crossing a newline starts with a list parameter
followed by at least one word character. -/
def mDotStarList : List Char → Option (List Char)
  | [] => none
  | c :: rest =>
    match mLit litListEq mWordPlus (c :: rest) with
    | some r => some r
    | none => if c = '\n' then none else mDotStarList rest

def patPl1 : Matcher := schemeOpt (wwwOpt (mLit litPlaylistQ mWordPlus))
def patPl2 : Matcher := schemeOpt (wwwOpt (mLit litWatchQ mDotStarList))
def patPl3 : Matcher := schemeOpt (mDotOpt (mLit litPlaylistQ mWordPlus))
def patPl4 : Matcher := schemeOpt (mDotOpt (mLit litWatchQ mDotStarList))

/-- `is_youtube_playlist_url` of src/yt_playlist_downloader.py lines
8-20. -/
def is_youtube_playlist_url (url : String) : Bool :=
  (patPl1 url.data).isSome || (patPl2 url.data).isSome ||
    (patPl3 url.data).isSome || (patPl4 url.data).isSome

/-! ### URL cleaning and small string helpers -/

/-- Hexadecimal digit value, if any. -/
def hexVal (c : Char) : Option Nat :=
  if '0' ≤ c ∧ c ≤ '9' then some (c.toNat - 48)
  else if 'a' ≤ c ∧ c ≤ 'f' then some (c.toNat - 87)
  else if 'A' ≤ c ∧ c ≤ 'F' then some (c.toNat - 55)
  else none

/-- Percent-decoding of the unquote call on the URL: a percent sign
followed by two hexadecimal digits becomes the coded character, anything
else is copied; faithful on the ASCII range the scripts rely on. -/
def unquoteChars : List Char → List Char
  | [] => []
  | '%' :: a :: b :: rest =>
    match hexVal a, hexVal b with
    | some ha, some hb => Char.ofNat (16 * ha + hb) :: unquoteChars rest
    | _, _ => '%' :: unquoteChars (a :: b :: rest)
  | c :: rest => c :: unquoteChars rest

/-- The URL cleaning done at the top of `list_formats`, `download_video`
and `download_playlist`: percent-decode, then delete every backslash. -/
def cleanUrl (s : String) : String :=
  String.mk ((unquoteChars s.data).filter (fun c => c ≠ '\\'))

/-- ASCII whitespace as stripped by the Python strip call. -/
def isPySpace (c : Char) : Bool :=
  (c == ' ') || (c == Char.ofNat 9) || (c == Char.ofNat 10) ||
    (c == Char.ofNat 13) || (c == Char.ofNat 11) || (c == Char.ofNat 12)

/-- The strip call on clipboard text and on the confirmation answer. -/
def pyStrip (s : String) : String :=
  String.mk (((s.data.dropWhile isPySpace).reverse.dropWhile isPySpace).reverse)

/-- The lower call on the confirmation answer (ASCII). -/
def pyLower (s : String) : String := String.mk (s.data.map lowerChar)

/-! ### Ranking for the interactive listing
(src/youtube_downloader.py lines 83-84) -/

/-- The filter of line 83: keep descriptors with a known height whose
container is not the thumbnail type. -/
def goodFormat (f : Format) : Bool := f.height.isSome && decide (f.ext ≠ "mhtml")

/-- The three-component sort key of line 84, missing values read as 0. -/
def key3 (f : Format) : ℤ × ℚ × ℤ := (f.height.getD 0, f.tbr.getD 0, f.filesize.getD 0)

/-- Lexicographic comparison of sort keys, as Python compares tuples. -/
def lexLe3 (a b : ℤ × ℚ × ℤ) : Bool :=
  decide (a.1 < b.1) || (decide (a.1 = b.1) &&
    (decide (a.2.1 < b.2.1) || (decide (a.2.1 = b.2.1) && decide (a.2.2 ≤ b.2.2))))

/-- The descending comparison used by the reverse sort of line 84. -/
def descLe (a b : Format) : Bool := lexLe3 (key3 b) (key3 a)

/-- Lines 83-84 of `list_formats`: filter, then stable sort descending on
the key (the Python list sort is stable, also with reverse). -/
def rankFormats (formats : List Format) : List Format :=
  (formats.filter goodFormat).mergeSort descLe

/-! ### Best-format inference of `download_video`
(src/youtube_downloader.py lines 143-154) -/

/-- The two-component key of the max calls of lines 150 and 152, missing
values read as 0. -/
def key2 (f : Format) : ℤ × ℚ := (f.height.getD 0, f.tbr.getD 0)

/-- Strict lexicographic comparison of two-component keys. -/
def lexLt2 (a b : ℤ × ℚ) : Bool :=
  decide (a.1 < b.1) || (decide (a.1 = b.1) && decide (a.2 < b.2))

/-- Python max over a non-empty list with a key function: keeps the
current best and replaces it only on a strictly greater key, hence
returns the first element with the maximal key. -/
def pyMaxBy (key : Format → ℤ × ℚ) : List Format → Option Format
  | [] => none
  | x :: xs => some (xs.foldl (fun b y => if lexLt2 (key b) (key y) then y else b) x)

/-- The filter of line 148: known height and a video codec different from
the literal none marker (an absent codec also qualifies). -/
def vfFilter (f : Format) : Bool := f.height.isSome && decide (f.vcodec ≠ some ("none"))

/-- Lines 147-152: the format whose height is shown when no format_id is
given; max over the filtered list when it is non-empty, otherwise max
over all formats.  Returns nothing only when the format list is empty, in
which case the Python max call raises. -/
def selectNoFid (formats : List Format) : Option Format :=
  let video_formats := formats.filter vfFilter
  if video_formats.isEmpty then pyMaxBy key2 formats
  else pyMaxBy key2 video_formats

/-! ### Control flow of the two download operations and the two CLI
entry points.  External collaborators (extractor, downloader, clipboard)
are modelled by their observable inputs; the outcome records which
side effects the function performed before returning. -/

/-- Observable outcome of `download_video` (lines 119-179): whether the
output directory was created, whether the download collaborator was
invoked, whether an error line was printed instead, and the quality
label derived for the chosen format. -/
structure DVOutcome where
  dirCreated : Bool
  downloadCalled : Bool
  errored : Bool
  label : Option String
deriving DecidableEq, Repr

/-- `download_video` of src/youtube_downloader.py lines 119-179, on the
path where the metadata query returns the given format list.  An invalid
URL returns before the directory is made; with no format_id and an empty
format list the max call raises and the exception handler prints an
error; otherwise the download collaborator runs. -/
def downloadVideoRun (url : String) (formats : List Format)
    (format_id : Option String) : DVOutcome :=
  if is_youtube_url (cleanUrl url) then
    match format_id with
    | some fid =>
      let sel := formats.find? (fun f => f.format_id == fid)
      ⟨true, true, false, some (get_quality_label (sel.bind Format.height))⟩
    | none =>
      match selectNoFid formats with
      | some sel => ⟨true, true, false, some (get_quality_label sel.height)⟩
      | none => ⟨true, false, true, none⟩
  else ⟨false, false, true, none⟩

/-- Observable outcome of `download_playlist` (lines 33-85 of
src/yt_playlist_downloader.py). -/
structure PLOutcome where
  dirCreated : Bool
  downloadCalled : Bool
  errored : Bool
deriving DecidableEq, Repr

/-- `download_playlist`, on the path where the metadata query succeeds;
`hasEntries` tells whether the returned info carries an entries list. -/
def downloadPlaylistRun (url : String) (hasEntries : Bool) : PLOutcome :=
  if is_youtube_playlist_url (cleanUrl url) then
    if hasEntries then ⟨true, true, false⟩ else ⟨true, false, true⟩
  else ⟨false, false, true⟩

/-- The main block of src/youtube_downloader.py lines 181-201: exit code
and whether `download_video` was reached, as a function of the clipboard
text.  `download_video` catches every exception, so reaching it ends the
process with exit code 0. -/
def mainVideo (clipboard : String) : ℕ × Bool :=
  let url := pyStrip clipboard
  if url = "" then (1, false)
  else if is_youtube_url url then (0, true)
  else (1, false)

/-- The main block of src/yt_playlist_downloader.py lines 133-179:
exit code and whether `download_playlist` was reached, as a function of
the clipboard text, the success of `get_playlist_info` and the typed
confirmation answer. -/
def mainPlaylist (clipboard : String) (infoOk : Bool) (confirm : String) : ℕ × Bool :=
  let url := pyStrip clipboard
  if url = "" then (1, false)
  else if ¬ is_youtube_playlist_url url then (1, false)
  else if ¬ infoOk then (1, false)
  else if pyLower (pyStrip confirm) = "y" ∨ pyLower (pyStrip confirm) = "yes" then (0, true)
  else (0, false)

/-! ### Interactive selection (spec §4.1); src/ contains no prompt over
the ranked list, so the protocol is modelled from the spec. -/

/-- Modelled from the spec: parsing of a typed reply as a decimal index
(the interactive selection code is absent from src/; non-numeric replies
are rejected). -/
def parseIndex (s : String) : Option ℕ :=
  if s.data ≠ [] ∧ s.data.all (fun c => ('0' ≤ c) && (c ≤ '9')) then
    some (s.data.foldl (fun n c => 10 * n + (c.toNat - 48)) 0)
  else none

/-- Modelled from the spec: the interactive selection loop over a ranked
list of n entries (absent from src/).  Replies are consumed until a valid
one: an empty reply selects index 1 (best quality), a 1-based in-range
number selects that index, anything else is rejected and the prompt
repeats with no retry limit.  The result is none only when the reply
stream is exhausted, modelling the still-running loop. -/
def selectIndex (n : ℕ) : List String → Option ℕ
  | [] => none
  | r :: rest =>
    if r = "" then some 1
    else
      match parseIndex r with
      | some k => if 1 ≤ k ∧ k ≤ n then some k else selectIndex n rest
      | none => selectIndex n rest

/-! ## Claims -/

/-- C4: `get_quality_label` is a total function of optional integer
height: none maps to Unknown, height at most 480 to SD, 481-720 to HD,
721-1080 to FHD, 1081-1440 to QHD, 1441-2160 to 4K, 2161-4320 to 8K, and
any height above 4320 to the height followed by a p; in particular 1080
gives FHD, 2160 gives 4K, 5000 gives 5000p and none gives Unknown. -/
theorem get_quality_label_spec :
    get_quality_label none = "Unknown" ∧
    (∀ h : ℤ,
      (h ≤ 480 → get_quality_label (some h) = "SD") ∧
      (481 ≤ h → h ≤ 720 → get_quality_label (some h) = "HD") ∧
      (721 ≤ h → h ≤ 1080 → get_quality_label (some h) = "FHD") ∧
      (1081 ≤ h → h ≤ 1440 → get_quality_label (some h) = "QHD") ∧
      (1441 ≤ h → h ≤ 2160 → get_quality_label (some h) = "4K") ∧
      (2161 ≤ h → h ≤ 4320 → get_quality_label (some h) = "8K") ∧
      (4320 < h → get_quality_label (some h) = toString h ++ "p")) ∧
    get_quality_label (some 1080) = "FHD" ∧
    get_quality_label (some 2160) = "4K" ∧
    get_quality_label (some 5000) = "5000p" := by
  refine ⟨rfl, fun h => ⟨?_, ?_, ?_, ?_, ?_, ?_, ?_⟩, by decide, by decide, by decide⟩
  · intro h1
    simp only [get_quality_label]
    rw [if_pos (by omega)]
  · intro h1 h2
    simp only [get_quality_label]
    rw [if_neg (by omega), if_pos (by omega)]
  · intro h1 h2
    simp only [get_quality_label]
    rw [if_neg (by omega), if_neg (by omega), if_pos (by omega)]
  · intro h1 h2
    simp only [get_quality_label]
    rw [if_neg (by omega), if_neg (by omega), if_neg (by omega), if_pos (by omega)]
  · intro h1 h2
    simp only [get_quality_label]
    rw [if_neg (by omega), if_neg (by omega), if_neg (by omega), if_neg (by omega),
      if_pos (by omega)]
  · intro h1 h2
    simp only [get_quality_label]
    rw [if_neg (by omega), if_neg (by omega), if_neg (by omega), if_neg (by omega),
      if_neg (by omega), if_pos (by omega)]
  · intro h1
    simp only [get_quality_label]
    rw [if_neg (by omega), if_neg (by omega), if_neg (by omega), if_neg (by omega),
      if_neg (by omega), if_neg (by omega)]

/-- Witness for C4 at concrete heights in every bucket. -/
theorem get_quality_label_spec_witness :
    get_quality_label (some 480) = "SD" ∧ get_quality_label (some 600) = "HD" ∧
    get_quality_label (some 900) = "FHD" ∧ get_quality_label (some 1200) = "QHD" ∧
    get_quality_label (some 1600) = "4K" ∧ get_quality_label (some 4000) = "8K" ∧
    get_quality_label (some 9999) = toString (9999 : ℤ) ++ "p" :=
  ⟨(get_quality_label_spec.2.1 480).1 (by norm_num),
   (get_quality_label_spec.2.1 600).2.1 (by norm_num) (by norm_num),
   (get_quality_label_spec.2.1 900).2.2.1 (by norm_num) (by norm_num),
   (get_quality_label_spec.2.1 1200).2.2.2.1 (by norm_num) (by norm_num),
   (get_quality_label_spec.2.1 1600).2.2.2.2.1 (by norm_num) (by norm_num),
   (get_quality_label_spec.2.1 4000).2.2.2.2.2.1 (by norm_num) (by norm_num),
   (get_quality_label_spec.2.1 9999).2.2.2.2.2.2 (by norm_num)⟩

/-- C2 (amended): the fallback chain of `estimate_size` fires on present
and non-zero fields (Python truthiness), not on mere presence: a present
non-zero filesize is returned exactly; otherwise a present non-zero
filesize_approx; otherwise, with tbr and duration present and non-zero,
the bitrate estimate tbr * 1000 * duration / 8; otherwise none. -/
theorem estimate_size_fallback :
    ∀ (fi : Format) (d : Option ℚ),
      (∀ v : ℤ, fi.filesize = some v → v ≠ 0 →
        estimate_size fi d = some ((v : ℚ))) ∧
      (truthyZ fi.filesize = false → ∀ v : ℤ, fi.filesize_approx = some v → v ≠ 0 →
        estimate_size fi d = some ((v : ℚ))) ∧
      (truthyZ fi.filesize = false → truthyZ fi.filesize_approx = false →
        ∀ t u : ℚ, fi.tbr = some t → t ≠ 0 → d = some u → u ≠ 0 →
          estimate_size fi d = some (t * 1000 * u / 8)) ∧
      (truthyZ fi.filesize = false → truthyZ fi.filesize_approx = false →
        (truthyQ fi.tbr = false ∨ truthyQ d = false) →
          estimate_size fi d = none) := by
  intro fi d
  refine ⟨?_, ?_, ?_, ?_⟩
  · intro v hv hnz
    have ht : truthyZ fi.filesize = true := by simp [truthyZ, hv, hnz]
    simp only [estimate_size]
    rw [if_pos ht, hv]
    simp
  · intro hf v hv hnz
    have ht : truthyZ fi.filesize_approx = true := by simp [truthyZ, hv, hnz]
    simp only [estimate_size]
    rw [if_neg (by simp [hf]), if_pos ht, hv]
    simp
  · intro hf ha t u htb htnz hd hdnz
    have ht : truthyQ fi.tbr = true := by simp [truthyQ, htb, htnz]
    have hu : truthyQ d = true := by simp [truthyQ, hd, hdnz]
    simp only [estimate_size]
    rw [if_neg (by simp [hf]), if_neg (by simp [ha]), if_pos (by rw [ht, hu]; rfl)]
    rw [htb, hd]
    simp
  · intro hf ha hor
    rcases hor with h | h <;> simp [estimate_size, hf, ha, h]

/-- A descriptor whose filesize field is present with value 0. -/
def fsZero : Format :=
  { format_id := "18", height := some 360, ext := "mp4", filesize := some 0,
    filesize_approx := some 999, tbr := some 50, vbr := none, fps := some 30,
    vcodec := some ("avc1") }

/-- Counterexample to C2 as stated: the filesize field is present (value
0), yet `estimate_size` does not return it — the Python guard tests
truthiness, so it falls through to filesize_approx. -/
theorem estimate_size_present_zero_cex :
    fsZero.filesize = some 0 ∧
    estimate_size fsZero (some 60) = some 999 ∧
    estimate_size fsZero (some 60) ≠ some ((0 : ℤ) : ℚ) := by
  refine ⟨rfl, by decide, by decide⟩

/-- Witness for C2 (amended), one concrete input per branch of the
chain. -/
theorem estimate_size_fallback_witness :
    estimate_size { fsZero with filesize := some 1000 } (some 60) = some ((1000 : ℤ) : ℚ) ∧
    estimate_size fsZero (some 60) = some ((999 : ℤ) : ℚ) ∧
    estimate_size { fsZero with filesize_approx := none } (some 60) =
      some (50 * 1000 * 60 / 8) ∧
    estimate_size { fsZero with filesize_approx := none, tbr := none } (some 60) = none :=
  ⟨(estimate_size_fallback _ (some 60)).1 1000 rfl (by norm_num),
   (estimate_size_fallback _ (some 60)).2.1 (by decide) 999 rfl (by norm_num),
   (estimate_size_fallback _ (some 60)).2.2.1 (by decide) (by decide) 50 60 rfl
     (by norm_num) rfl (by norm_num),
   (estimate_size_fallback _ (some 60)).2.2.2 (by decide) (by decide) (Or.inl (by decide))⟩

/-- C7 (spec-modelled): over a non-empty ranked list, an empty reply
selects index 1, any reply that is not empty and parses to no in-range
index is rejected and the prompt repeats, and any number of such invalid
replies before a valid one does not change the selection (no retry
limit). -/
theorem selectIndex_spec (n : ℕ) (_hn : 0 < n) :
    (∀ rest, selectIndex n (("") :: rest) = some 1) ∧
    (∀ r rest, r ≠ "" → (∀ k, parseIndex r = some k → k = 0 ∨ n < k) →
      selectIndex n (r :: rest) = selectIndex n rest) ∧
    (∀ bad rest,
      (∀ r ∈ bad, r ≠ "" ∧ ∀ k, parseIndex r = some k → k = 0 ∨ n < k) →
      selectIndex n (bad ++ ("") :: rest) = some 1) := by
  have hskip : ∀ r rest, r ≠ "" → (∀ k, parseIndex r = some k → k = 0 ∨ n < k) →
      selectIndex n (r :: rest) = selectIndex n rest := by
    intro r rest hr hout
    simp only [selectIndex, if_neg hr]
    cases hp : parseIndex r with
    | none => rfl
    | some k =>
      have hk := hout k hp
      have hnot : ¬ (1 ≤ k ∧ k ≤ n) := by omega
      simp [hnot]
  refine ⟨fun rest => by simp [selectIndex], hskip, ?_⟩
  intro bad
  induction bad with
  | nil => intro rest _; simp [selectIndex]
  | cons r rs ih =>
    intro rest hall
    rw [List.cons_append, hskip r _ (hall r (by simp)).1 (hall r (by simp)).2]
    exact ih rest (fun x hx => hall x (by simp [hx]))

/-- Witness for C7: three invalid replies then an empty one still select
index 1 on a five-entry list. -/
theorem selectIndex_spec_witness :
    selectIndex 5 ([("9"), ("abc"), ("0")] ++ ("") :: []) = some 1 :=
  (selectIndex_spec 5 (by norm_num)).2.2 ([("9"), ("abc"), ("0")]) []
    (by intro r hr
        fin_cases hr <;> exact ⟨by decide, by decide⟩)

/-- C9: a URL whose cleaned form fails validation makes both
`download_video` and `download_playlist` return after the error message,
before the output directory is created and before the download
collaborator is invoked. -/
theorem validation_no_effects :
    ∀ (url : String) (formats : List Format) (fid : Option String) (hasEntries : Bool),
      (is_youtube_url (cleanUrl url) = false →
        (downloadVideoRun url formats fid).dirCreated = false ∧
        (downloadVideoRun url formats fid).downloadCalled = false) ∧
      (is_youtube_playlist_url (cleanUrl url) = false →
        (downloadPlaylistRun url hasEntries).dirCreated = false ∧
        (downloadPlaylistRun url hasEntries).downloadCalled = false) := by
  intro url formats fid hasEntries
  constructor
  · intro h
    simp [downloadVideoRun, h]
  · intro h
    simp [downloadPlaylistRun, h]

/-- Witness for C9 at a concrete invalid URL. -/
theorem validation_no_effects_witness :
    ((downloadVideoRun ("notaurl") [] none).dirCreated = false ∧
      (downloadVideoRun ("notaurl") [] none).downloadCalled = false) ∧
    ((downloadPlaylistRun ("notaurl") true).dirCreated = false ∧
      (downloadPlaylistRun ("notaurl") true).downloadCalled = false) :=
  ⟨(validation_no_effects ("notaurl") [] none true).1 (by decide),
   (validation_no_effects ("notaurl") [] none true).2 (by decide)⟩

/-- An audio-only descriptor: no height, codec marker none. -/
def audioOnlyFmt : Format :=
  { format_id := "140", height := none, ext := "m4a", filesize := some 1000,
    filesize_approx := none, tbr := some 128, vbr := none, fps := none,
    vcodec := some ("none") }

/-- A valid video URL used by concrete runs. -/
def watchUrl : String := "https://www.youtube.com/watch?v=abc"

/-- Counterexample to C6 as stated: a metadata result with one audio-only
format has an empty filtered list (no descriptor with a known height),
yet `download_video` does not abort — it falls back to the maximum over
all descriptors and invokes the download collaborator. -/
theorem empty_filter_no_abort_cex :
    (([audioOnlyFmt].filter (fun f => f.height.isSome)).isEmpty = true) ∧
    (downloadVideoRun watchUrl [audioOnlyFmt] none).downloadCalled = true ∧
    (downloadVideoRun watchUrl [audioOnlyFmt] none).errored = false := by
  refine ⟨by decide, by decide, by decide⟩

/-- C6 (amended): only a fully empty format list aborts: when the
metadata carries no formats at all and no format_id is given, the max
call raises, the handler prints an error, and the operation ends before
the download collaborator is invoked.  An empty filtered list with a
non-empty format list instead falls back to all descriptors. -/
theorem empty_formats_abort :
    ∀ (url : String) (formats : List Format),
      is_youtube_url (cleanUrl url) = true → formats = [] →
      (downloadVideoRun url formats none).downloadCalled = false ∧
      (downloadVideoRun url formats none).errored = true := by
  intro url formats h he
  subst he
  simp [downloadVideoRun, h, selectNoFid, pyMaxBy]

/-- Witness for C6 (amended) at a concrete valid URL and empty list. -/
theorem empty_formats_abort_witness :
    (downloadVideoRun watchUrl [] none).downloadCalled = false ∧
    (downloadVideoRun watchUrl [] none).errored = true :=
  empty_formats_abort watchUrl [] (by decide) rfl

/-- C8: both command-line entry points exit with code 1 when the
stripped clipboard is empty or the clipboard URL fails that script's
validation, and the playlist entry point exits with code 0 when the
user declines the confirmation prompt. -/
theorem cli_exit_codes :
    ∀ (clip confirm : String) (infoOk : Bool),
      (pyStrip clip = "" →
        mainVideo clip = (1, false) ∧ mainPlaylist clip infoOk confirm = (1, false)) ∧
      (is_youtube_url (pyStrip clip) = false → (mainVideo clip).1 = 1) ∧
      (is_youtube_playlist_url (pyStrip clip) = false →
        (mainPlaylist clip infoOk confirm).1 = 1) ∧
      (is_youtube_playlist_url (pyStrip clip) = true → infoOk = true →
        pyLower (pyStrip confirm) ≠ "y" → pyLower (pyStrip confirm) ≠ "yes" →
        mainPlaylist clip infoOk confirm = (0, false)) := by
  intro clip confirm infoOk
  refine ⟨?_, ?_, ?_, ?_⟩
  · intro h
    constructor
    · simp [mainVideo, h]
    · simp [mainPlaylist, h]
  · intro h
    by_cases he : pyStrip clip = ""
    · simp [mainVideo, he]
    · simp [mainVideo, he, h]
  · intro h
    by_cases he : pyStrip clip = ""
    · simp [mainPlaylist, he]
    · simp [mainPlaylist, he, h]
  · intro h hinfo hy hyes
    have he : pyStrip clip ≠ "" := by
      intro he
      rw [he] at h
      exact absurd h (by decide)
    simp [mainPlaylist, he, h, hinfo, hy, hyes]

/-- Witness for C8: empty clipboard, an invalid URL in each script, and
a declined confirmation on a valid playlist URL. -/
theorem cli_exit_codes_witness :
    (mainVideo ("  ") = (1, false) ∧ mainPlaylist ("  ") true ("y") = (1, false)) ∧
    (mainVideo ("notaurl")).1 = 1 ∧
    (mainPlaylist ("notaurl") true ("y")).1 = 1 ∧
    mainPlaylist ("https://www.youtube.com/playlist?list=PL1") true ("n") = (0, false) :=
  ⟨(cli_exit_codes ("  ") ("y") true).1 (by decide),
   (cli_exit_codes ("notaurl") ("y") true).2.1 (by decide),
   (cli_exit_codes ("notaurl") ("y") true).2.2.1 (by decide),
   (cli_exit_codes ("https://www.youtube.com/playlist?list=PL1") ("n") true).2.2.2
     (by decide) rfl (by decide) (by decide)⟩

/-! ### Lemmas on the two-component lexicographic comparison and the
Python max fold, for C3. -/

theorem lexLt2_iff (a b : ℤ × ℚ) :
    lexLt2 a b = true ↔ a.1 < b.1 ∨ (a.1 = b.1 ∧ a.2 < b.2) := by
  simp [lexLt2]

theorem lexLt2_irrefl (a : ℤ × ℚ) : lexLt2 a a = false := by
  simp [lexLt2]

theorem lexLt2_neg_trans (a b c : ℤ × ℚ)
    (h1 : lexLt2 a b = false) (h2 : lexLt2 b c = false) : lexLt2 a c = false := by
  rw [← Bool.not_eq_true, lexLt2_iff] at h1 h2 ⊢
  push_neg at h1 h2 ⊢
  obtain ⟨hb1, hb2⟩ := h1
  obtain ⟨hc1, hc2⟩ := h2
  refine ⟨by omega, ?_⟩
  intro he
  have e1 : b.1 = a.1 := by omega
  have e2 : b.1 = c.1 := by omega
  have q1 := hb2 e1.symm
  have q2 := hc2 e2
  linarith

theorem lexLt2_neg_of_lt (a b c : ℤ × ℚ)
    (h1 : lexLt2 a b = true) (h2 : lexLt2 c b = false) : lexLt2 c a = false := by
  rw [lexLt2_iff] at h1
  rw [← Bool.not_eq_true, lexLt2_iff] at h2 ⊢
  push_neg at h2 ⊢
  obtain ⟨hc1, hc2⟩ := h2
  rcases h1 with h | ⟨he, hq⟩
  · refine ⟨by omega, ?_⟩
    intro hca
    omega
  · refine ⟨by omega, ?_⟩
    intro hca
    have : c.1 = b.1 := by omega
    have := hc2 this
    linarith

theorem foldl_max_mem (key : Format → ℤ × ℚ) :
    ∀ (xs : List Format) (x : Format),
      xs.foldl (fun b y => if lexLt2 (key b) (key y) then y else b) x ∈ x :: xs := by
  intro xs
  induction xs with
  | nil => intro x; simp
  | cons y ys ih =>
    intro x
    rw [List.foldl_cons]
    rcases List.mem_cons.mp (ih (if lexLt2 (key x) (key y) then y else x)) with h | h
    · by_cases hc : lexLt2 (key x) (key y) = true
      · rw [h, if_pos hc]
        simp
      · rw [h, if_neg hc]
        simp
    · simp [List.mem_cons_of_mem, h]

theorem foldl_max_ub (key : Format → ℤ × ℚ) :
    ∀ (xs : List Format) (x g : Format), g ∈ x :: xs →
      lexLt2 (key (xs.foldl (fun b y => if lexLt2 (key b) (key y) then y else b) x))
        (key g) = false := by
  intro xs
  induction xs with
  | nil =>
    intro x g hg
    rw [List.foldl_nil]
    rcases List.mem_singleton.mp hg with h
    rw [h]
    exact lexLt2_irrefl _
  | cons y ys ih =>
    intro x g hg
    rw [List.foldl_cons]
    rcases List.mem_cons.mp hg with h | hg'
    · subst h
      by_cases hc : lexLt2 (key g) (key y) = true
      · rw [if_pos hc]
        exact lexLt2_neg_of_lt _ _ _ hc (ih y y (List.mem_cons_self y ys))
      · rw [if_neg hc]
        exact ih g g (List.mem_cons_self g ys)
    · rcases List.mem_cons.mp hg' with h | h
      · subst h
        by_cases hc : lexLt2 (key x) (key g) = true
        · rw [if_pos hc]
          exact ih g g (List.mem_cons_self g ys)
        · rw [if_neg hc]
          have hb := ih x x (List.mem_cons_self x ys)
          exact lexLt2_neg_trans _ _ _ hb (by simpa using hc)
      · by_cases hc : lexLt2 (key x) (key y) = true
        · rw [if_pos hc]
          exact ih y g (List.mem_cons_of_mem y h)
        · rw [if_neg hc]
          exact ih x g (List.mem_cons_of_mem x h)

theorem pyMaxBy_mem (key : Format → ℤ × ℚ) (l : List Format) (m : Format)
    (hm : pyMaxBy key l = some m) : m ∈ l := by
  cases l with
  | nil => simp [pyMaxBy] at hm
  | cons x xs =>
    simp only [pyMaxBy, Option.some.injEq] at hm
    rw [← hm]
    exact foldl_max_mem key xs x

theorem pyMaxBy_ub (key : Format → ℤ × ℚ) (l : List Format) (m : Format)
    (hm : pyMaxBy key l = some m) :
    ∀ g ∈ l, lexLt2 (key m) (key g) = false := by
  cases l with
  | nil => simp [pyMaxBy] at hm
  | cons x xs =>
    simp only [pyMaxBy, Option.some.injEq] at hm
    intro g hg
    rw [← hm]
    exact foldl_max_ub key xs x g hg

theorem pyMaxBy_isSome (key : Format → ℤ × ℚ) (l : List Format) (h : l ≠ []) :
    (pyMaxBy key l).isSome = true := by
  cases l with
  | nil => exact absurd rfl h
  | cons x xs => simp [pyMaxBy]

/-- C3: with no explicit format_id, `download_video` derives the shown
quality from the first maximum by (height, tbr) over the descriptors with
a known height and a video codec different from the none marker; when no
descriptor qualifies, from the first maximum by the same key over all
descriptors, missing values read as 0.  The selected descriptor belongs
to the respective list and no element of it has a strictly greater
key. -/
theorem selectNoFid_max (formats : List Format) (h : formats ≠ []) :
    (selectNoFid formats).isSome = true ∧
    ∀ sel, selectNoFid formats = some sel →
      (formats.filter vfFilter ≠ [] →
        sel ∈ formats.filter vfFilter ∧
        ∀ g ∈ formats.filter vfFilter, lexLt2 (key2 sel) (key2 g) = false) ∧
      (formats.filter vfFilter = [] →
        sel ∈ formats ∧ ∀ g ∈ formats, lexLt2 (key2 sel) (key2 g) = false) := by
  by_cases hv : formats.filter vfFilter = []
  · have hsel : selectNoFid formats = pyMaxBy key2 formats := by
      simp [selectNoFid, hv]
    rw [hsel]
    refine ⟨pyMaxBy_isSome key2 formats h, ?_⟩
    intro sel hs
    exact ⟨fun hne => absurd hv hne, fun _ =>
      ⟨pyMaxBy_mem key2 formats sel hs, pyMaxBy_ub key2 formats sel hs⟩⟩
  · have hsel : selectNoFid formats = pyMaxBy key2 (formats.filter vfFilter) := by
      simp only [selectNoFid]
      rw [if_neg (by simpa [List.isEmpty_iff] using hv)]
    rw [hsel]
    refine ⟨pyMaxBy_isSome key2 _ hv, ?_⟩
    intro sel hs
    exact ⟨fun _ => ⟨pyMaxBy_mem key2 _ sel hs, pyMaxBy_ub key2 _ sel hs⟩,
      fun he => absurd he hv⟩

/-- A 720p and a 1080p video descriptor for the C3 witness. -/
def fmt720 : Format :=
  { format_id := "22", height := some 720, ext := "mp4", filesize := some 1000,
    filesize_approx := none, tbr := some 100, vbr := none, fps := some 30,
    vcodec := some ("avc1") }

def fmt1080 : Format :=
  { fmt720 with format_id := "37", height := some 1080, tbr := some 200 }

/-- Witness for C3: on a two-element list the 1080p entry is selected,
it belongs to the filtered list, and the 720p entry does not beat it. -/
theorem selectNoFid_max_witness :
    (selectNoFid [fmt720, fmt1080]).isSome = true ∧
    selectNoFid [fmt720, fmt1080] = some fmt1080 ∧
    fmt1080 ∈ [fmt720, fmt1080].filter vfFilter ∧
    lexLt2 (key2 fmt1080) (key2 fmt720) = false :=
  ⟨(selectNoFid_max [fmt720, fmt1080] (by decide)).1,
   by decide,
   (((selectNoFid_max [fmt720, fmt1080] (by decide)).2 fmt1080 (by decide)).1
      (by decide)).1,
   (((selectNoFid_max [fmt720, fmt1080] (by decide)).2 fmt1080 (by decide)).1
      (by decide)).2 fmt720 (by decide)⟩

/-! ### Bucket lemmas for `format_size`, for C5. -/

theorem formatSize_bucketB (x : ℚ) (h : x < 1024) :
    format_size (some x) = renderFixed1 x ++ "B" := by
  simp only [format_size, formatSizeGo]
  rw [if_pos h]

theorem formatSize_bucketKB (x : ℚ) (h1 : 1024 ≤ x) (h2 : x < 1024 ^ 2) :
    format_size (some x) = renderFixed1 (x / 1024) ++ "KB" := by
  have n1 : ¬ x < 1024 := not_lt.mpr h1
  have p2 : x / 1024 < 1024 := by
    rw [div_lt_iff₀ (by norm_num : (0 : ℚ) < 1024)]
    nlinarith
  simp only [format_size, formatSizeGo]
  rw [if_neg n1, if_pos p2]

theorem formatSize_bucketMB (x : ℚ) (h1 : 1024 ^ 2 ≤ x) (h2 : x < 1024 ^ 3) :
    format_size (some x) = renderFixed1 (x / 1024 ^ 2) ++ "MB" := by
  have n1 : ¬ x < 1024 := by push_neg; nlinarith
  have n2 : ¬ x / 1024 < 1024 := by
    push_neg
    rw [le_div_iff₀ (by norm_num : (0 : ℚ) < 1024)]
    nlinarith
  have p3 : x / 1024 / 1024 < 1024 := by
    rw [div_div, div_lt_iff₀ (by norm_num : (0 : ℚ) < 1024 * 1024)]
    nlinarith
  simp only [format_size, formatSizeGo]
  rw [if_neg n1, if_neg n2, if_pos p3,
    show x / 1024 / 1024 = x / 1024 ^ 2 by rw [div_div]; norm_num]

theorem formatSize_bucketGB (x : ℚ) (h1 : 1024 ^ 3 ≤ x) (h2 : x < 1024 ^ 4) :
    format_size (some x) = renderFixed1 (x / 1024 ^ 3) ++ "GB" := by
  have n1 : ¬ x < 1024 := by push_neg; nlinarith
  have n2 : ¬ x / 1024 < 1024 := by
    push_neg
    rw [le_div_iff₀ (by norm_num : (0 : ℚ) < 1024)]
    nlinarith
  have n3 : ¬ x / 1024 / 1024 < 1024 := by
    push_neg
    rw [div_div, le_div_iff₀ (by norm_num : (0 : ℚ) < 1024 * 1024)]
    nlinarith
  have p4 : x / 1024 / 1024 / 1024 < 1024 := by
    rw [div_div, div_div, div_lt_iff₀ (by norm_num : (0 : ℚ) < 1024 * (1024 * 1024))]
    nlinarith
  simp only [format_size, formatSizeGo]
  rw [if_neg n1, if_neg n2, if_neg n3, if_pos p4,
    show x / 1024 / 1024 / 1024 = x / 1024 ^ 3 by rw [div_div, div_div]; norm_num]

theorem formatSize_bucketTB (x : ℚ) (h1 : 1024 ^ 4 ≤ x) :
    format_size (some x) = renderFixed1 (x / 1024 ^ 4) ++ "TB" := by
  have n1 : ¬ x < 1024 := by push_neg; nlinarith
  have n2 : ¬ x / 1024 < 1024 := by
    push_neg
    rw [le_div_iff₀ (by norm_num : (0 : ℚ) < 1024)]
    nlinarith
  have n3 : ¬ x / 1024 / 1024 < 1024 := by
    push_neg
    rw [div_div, le_div_iff₀ (by norm_num : (0 : ℚ) < 1024 * 1024)]
    nlinarith
  have n4 : ¬ x / 1024 / 1024 / 1024 < 1024 := by
    push_neg
    rw [div_div, div_div, le_div_iff₀ (by norm_num : (0 : ℚ) < 1024 * (1024 * 1024))]
    nlinarith
  simp only [format_size, formatSizeGo]
  rw [if_neg n1, if_neg n2, if_neg n3, if_neg n4,
    show x / 1024 / 1024 / 1024 / 1024 = x / 1024 ^ 4 by
      rw [div_div, div_div, div_div]; norm_num]

/-- C5: `format_size` prints Unknown for an absent size and otherwise a
one-decimal number with the unit reached by dividing by 1024 while the
value is at least 1024, the units running through B, KB, MB, GB and
ending at TB; in particular 1536 bytes print as 1.5KB. -/
theorem format_size_spec :
    format_size none = "Unknown" ∧
    format_size (some 1536) = "1.5KB" ∧
    ∀ x : ℚ,
      (x < 1024 → format_size (some x) = renderFixed1 x ++ "B") ∧
      (1024 ≤ x → x < 1024 ^ 2 →
        format_size (some x) = renderFixed1 (x / 1024) ++ "KB") ∧
      (1024 ^ 2 ≤ x → x < 1024 ^ 3 →
        format_size (some x) = renderFixed1 (x / 1024 ^ 2) ++ "MB") ∧
      (1024 ^ 3 ≤ x → x < 1024 ^ 4 →
        format_size (some x) = renderFixed1 (x / 1024 ^ 3) ++ "GB") ∧
      (1024 ^ 4 ≤ x → format_size (some x) = renderFixed1 (x / 1024 ^ 4) ++ "TB") := by
  refine ⟨rfl, ?_, fun x =>
    ⟨formatSize_bucketB x, formatSize_bucketKB x, formatSize_bucketMB x,
     formatSize_bucketGB x, formatSize_bucketTB x⟩⟩
  have h1 : format_size (some 1536) = renderFixed1 (1536 / 1024) ++ "KB" :=
    formatSize_bucketKB 1536 (by norm_num) (by norm_num)
  have h2 : (1536 : ℚ) / 1024 = 3 / 2 := by norm_num
  have h3 : renderFixed1 (3 / 2) = "1.5" := by
    unfold renderFixed1 roundHalfEven
    have hf : (10 : ℚ) * (3 / 2) = 15 := by norm_num
    rw [hf]
    have hfr : Int.fract (15 : ℚ) = 0 := by norm_num [Int.fract]
    rw [hfr, if_pos (by norm_num)]
    have hfl : ⌊(15 : ℚ)⌋ = 15 := by norm_num
    rw [hfl]
    decide
  rw [h1, h2, h3]
  rfl

/-- Witness for C5 at one concrete size per unit bucket. -/
theorem format_size_spec_witness :
    format_size (some 512) = renderFixed1 512 ++ "B" ∧
    format_size (some 1536) = renderFixed1 (1536 / 1024) ++ "KB" ∧
    format_size (some 2097152) = renderFixed1 (2097152 / 1024 ^ 2) ++ "MB" ∧
    format_size (some 2147483648) = renderFixed1 (2147483648 / 1024 ^ 3) ++ "GB" ∧
    format_size (some 2199023255552) = renderFixed1 (2199023255552 / 1024 ^ 4) ++ "TB" :=
  ⟨(format_size_spec.2.2 512).1 (by norm_num),
   (format_size_spec.2.2 1536).2.1 (by norm_num) (by norm_num),
   (format_size_spec.2.2 2097152).2.2.1 (by norm_num) (by norm_num),
   (format_size_spec.2.2 2147483648).2.2.2.1 (by norm_num) (by norm_num),
   (format_size_spec.2.2 2199023255552).2.2.2.2 (by norm_num)⟩

/-! ### Lemmas on the three-component lexicographic comparison, for C1. -/

theorem lexLe3_iff (a b : ℤ × ℚ × ℤ) :
    lexLe3 a b = true ↔
      a.1 < b.1 ∨ (a.1 = b.1 ∧
        (a.2.1 < b.2.1 ∨ (a.2.1 = b.2.1 ∧ a.2.2 ≤ b.2.2))) := by
  simp [lexLe3]

theorem lexLe3_refl (a : ℤ × ℚ × ℤ) : lexLe3 a a = true := by
  simp [lexLe3]

theorem lexLe3_trans (a b c : ℤ × ℚ × ℤ)
    (h1 : lexLe3 a b = true) (h2 : lexLe3 b c = true) : lexLe3 a c = true := by
  rw [lexLe3_iff] at h1 h2 ⊢
  rcases h1 with h1 | ⟨e1, h1⟩
  · rcases h2 with h2 | ⟨e2, h2⟩
    · exact Or.inl (by omega)
    · exact Or.inl (by omega)
  · rcases h2 with h2 | ⟨e2, h2⟩
    · exact Or.inl (by omega)
    · refine Or.inr ⟨by omega, ?_⟩
      rcases h1 with h1 | ⟨f1, h1⟩
      · rcases h2 with h2 | ⟨f2, h2⟩
        · exact Or.inl (by linarith)
        · exact Or.inl (by linarith)
      · rcases h2 with h2 | ⟨f2, h2⟩
        · exact Or.inl (by linarith)
        · exact Or.inr ⟨by linarith, by linarith⟩

theorem lexLe3_total (a b : ℤ × ℚ × ℤ) : (lexLe3 a b || lexLe3 b a) = true := by
  rw [Bool.or_eq_true, lexLe3_iff, lexLe3_iff]
  rcases lt_trichotomy a.1 b.1 with h | h | h
  · exact Or.inl (Or.inl h)
  · rcases lt_trichotomy a.2.1 b.2.1 with h2 | h2 | h2
    · exact Or.inl (Or.inr ⟨h, Or.inl h2⟩)
    · rcases le_total a.2.2 b.2.2 with h3 | h3
      · exact Or.inl (Or.inr ⟨h, Or.inr ⟨h2, h3⟩⟩)
      · exact Or.inr (Or.inr ⟨h.symm, Or.inr ⟨h2.symm, h3⟩⟩)
    · exact Or.inr (Or.inr ⟨h.symm, Or.inl h2⟩)
  · exact Or.inr (Or.inl h)

theorem descLe_trans : ∀ (a b c : Format), descLe a b → descLe b c → descLe a c :=
  fun a b c h1 h2 => lexLe3_trans (key3 c) (key3 b) (key3 a) h2 h1

theorem descLe_total : ∀ (a b : Format), (descLe a b || descLe b a) = true :=
  fun a b => lexLe3_total (key3 b) (key3 a)

/-- C1: the ranked list of `list_formats` holds exactly the descriptors
with a known height whose container is not the thumbnail type; it is
ordered descending on the key (height, tbr, filesize) with missing
values read as 0; and the sort is stable — within each key the original
order of the filtered list is preserved. -/
theorem rankFormats_spec (formats : List Format) :
    List.Perm (rankFormats formats) (formats.filter goodFormat) ∧
    (∀ f, f ∈ rankFormats formats ↔
      f ∈ formats ∧ f.height.isSome = true ∧ f.ext ≠ "mhtml") ∧
    List.Pairwise (fun a b => lexLe3 (key3 b) (key3 a) = true) (rankFormats formats) ∧
    (∀ k, (rankFormats formats).filter (fun f => decide (key3 f = k)) =
      (formats.filter goodFormat).filter (fun f => decide (key3 f = k))) := by
  refine ⟨List.mergeSort_perm _ descLe, ?_, ?_, ?_⟩
  · intro f
    simp [rankFormats, List.mem_filter, goodFormat, Bool.and_eq_true,
      decide_eq_true_eq, and_assoc]
  · exact List.sorted_mergeSort descLe_trans descLe_total (formats.filter goodFormat)
  · intro k
    set l := formats.filter goodFormat with hl
    set p : Format → Bool := fun f => decide (key3 f = k) with hp
    have hall : ∀ f ∈ l.filter p, p f = true := fun f hf => (List.mem_filter.mp hf).2
    have hpair : (l.filter p).Pairwise (fun a b => descLe a b) := by
      apply List.pairwise_of_forall_mem_list
      intro a ha b hb
      have ha' : key3 a = k := of_decide_eq_true (hall a ha)
      have hb' : key3 b = k := of_decide_eq_true (hall b hb)
      show lexLe3 (key3 b) (key3 a) = true
      rw [ha', hb']
      exact lexLe3_refl k
    have hsub : List.Sublist (l.filter p) (List.mergeSort l descLe) :=
      List.sublist_mergeSort descLe_trans descLe_total hpair (List.filter_sublist l)
    have hsub2 : List.Sublist (l.filter p) ((List.mergeSort l descLe).filter p) := by
      have h2 := hsub.filter p
      rwa [List.filter_eq_self.mpr hall] at h2
    have hlen : ((List.mergeSort l descLe).filter p).length = (l.filter p).length :=
      ((List.mergeSort_perm l descLe).filter p).length_eq
    exact (hsub2.eq_of_length hlen.symm).symm

/-! ### Monotonicity of the matchers under appending input, for C10. -/

/-- A matcher that keeps succeeding when more input is appended. -/
def KMono (m : Matcher) : Prop :=
  ∀ s t, (m s).isSome = true → (m (s ++ t)).isSome = true

theorem matchLit_append (lit : List Char) :
    ∀ (s t r : List Char), matchLit lit s = some r →
      matchLit lit (s ++ t) = some (r ++ t) := by
  induction lit with
  | nil =>
    intro s t r h
    simp only [matchLit, Option.some.injEq] at h ⊢
    rw [h]
  | cons c cs ih =>
    intro s t r h
    cases s with
    | nil => simp [matchLit] at h
    | cons x xs =>
      simp only [matchLit] at h
      by_cases hc : lowerChar x = lowerChar c
      · rw [if_pos hc] at h
        rw [List.cons_append]
        simp only [matchLit]
        rw [if_pos hc]
        exact ih xs t r h
      · rw [if_neg hc] at h
        exact absurd h (by simp)

theorem kmono_mLit {lit : List Char} {k : Matcher} (hk : KMono k) :
    KMono (mLit lit k) := by
  intro s t h
  simp only [mLit] at h ⊢
  cases hm : matchLit lit s with
  | none => rw [hm] at h; simp at h
  | some r =>
    rw [hm] at h
    rw [matchLit_append lit s t r hm]
    exact hk r t h

theorem kmono_mOpt {sub : Matcher → Matcher}
    (hs : ∀ k, KMono k → KMono (sub k)) {k : Matcher} (hk : KMono k) :
    KMono (mOpt sub k) := by
  intro s t h
  simp only [mOpt] at h ⊢
  cases h1 : sub k s with
  | some r =>
    have hss : (sub k s).isSome = true := by rw [h1]; rfl
    have := hs k hk s t hss
    cases h2 : sub k (s ++ t) with
    | some r2 => simp
    | none => rw [h2] at this; simp at this
  | none =>
    rw [h1] at h
    have := hk s t h
    cases h2 : sub k (s ++ t) with
    | some r2 => simp
    | none => simpa using this

theorem kmono_mWordPlus : KMono mWordPlus := by
  intro s t h
  cases s with
  | nil => simp [mWordPlus] at h
  | cons c cs =>
    simp only [mWordPlus] at h
    by_cases hw : isWordChar c = true
    · rw [List.cons_append]
      simp [mWordPlus, hw]
    · rw [if_neg hw] at h
      simp at h

theorem kmono_schemeOpt {k : Matcher} (hk : KMono k) : KMono (schemeOpt k) := by
  unfold schemeOpt
  exact kmono_mOpt
    (fun k2 hk2 => kmono_mLit (kmono_mOpt (fun k3 hk3 => kmono_mLit hk3) (kmono_mLit hk2)))
    hk

theorem kmono_wwwOpt {k : Matcher} (hk : KMono k) : KMono (wwwOpt k) :=
  kmono_mOpt (fun _ hk3 => kmono_mLit hk3) hk

theorem kmono_mDotOpt {k : Matcher} (hk : KMono k) : KMono (mDotOpt k) :=
  kmono_mOpt (fun _ hk3 => kmono_mLit hk3) hk

/-- C10: URL validation is prefix matching — once `is_youtube_url`
accepts a string, it accepts every extension of it by arbitrary trailing
characters (the Python match is anchored only at the start). -/
theorem is_youtube_url_extends :
    ∀ (s t : String), is_youtube_url s = true → is_youtube_url (s ++ t) = true := by
  intro s t h
  simp only [is_youtube_url, Bool.or_eq_true] at h ⊢
  rw [String.data_append]
  have hw : KMono patWatch := kmono_schemeOpt (kmono_wwwOpt (kmono_mLit kmono_mWordPlus))
  have hb : KMono patBe := kmono_schemeOpt (kmono_wwwOpt (kmono_mLit kmono_mWordPlus))
  have he : KMono patEmbed := kmono_schemeOpt (kmono_wwwOpt (kmono_mLit kmono_mWordPlus))
  have hv : KMono patVSlash := kmono_schemeOpt (kmono_wwwOpt (kmono_mLit kmono_mWordPlus))
  have hm : KMono patMWatch := kmono_schemeOpt (kmono_mDotOpt (kmono_mLit kmono_mWordPlus))
  rcases h with ((((h | h) | h) | h) | h)
  · exact Or.inl (Or.inl (Or.inl (Or.inl (hw s.data t.data h))))
  · exact Or.inl (Or.inl (Or.inl (Or.inr (hb s.data t.data h))))
  · exact Or.inl (Or.inl (Or.inr (he s.data t.data h)))
  · exact Or.inl (Or.inr (hv s.data t.data h))
  · exact Or.inr (hm s.data t.data h)

/-- Witness for C10: a valid watch URL stays accepted with trailing
garbage appended. -/
theorem is_youtube_url_extends_witness :
    is_youtube_url (("https://www.youtube.com/watch?v=dQw4") ++ ("&&<#garbage )")) = true :=
  is_youtube_url_extends ("https://www.youtube.com/watch?v=dQw4") ("&&<#garbage )")
    (by decide)

end Yt
